import Mathlib

set_option maxRecDepth 40000

/-!
Shallow embedding of `custom_components/mikettle/mikettle.py` (MiKettle):
the status decoder, the TTL/backoff cache logic, and the stream-cipher
primitives, together with theorems settling the specification claims.

Bytes are modelled as `Nat` (masked with `&&& 0xff` exactly where the
source masks), byte strings as `List Nat`, timestamps and durations as
`Int` seconds, Python `dict` lookups that may raise `KeyError` as
`Option`-valued maps, and exceptions as `Option`/`none` results.
-/

namespace MiKettle

/-- The decoded status reading (the dict built by `_parse_data`). -/
structure Reading where
  action : String
  mode : String
  setTemperature : Nat
  currentTemperature : Nat
  keepWarmType : String
  keepWarmTime : Nat
deriving DecidableEq, Repr

/-- `MI_ACTION_MAP` from the source; a missing key is `none` (Python `KeyError`). -/
def MI_ACTION_MAP : Nat → Option String
  | 0 => some "idle"
  | 1 => some "heating"
  | 2 => some "cooling"
  | 3 => some "keeping warm"
  | _ => none

/-- `MI_MODE_MAP` from the source. -/
def MI_MODE_MAP : Nat → Option String
  | 255 => some "none"
  | 1 => some "boil"
  | 3 => some "keep warm"
  | _ => none

/-- `MI_KW_TYPE_MAP` from the source. -/
def MI_KW_TYPE_MAP : Nat → Option String
  | 0 => some "warm up"
  | 1 => some "cool down"
  | _ => none

/-- `MiKettle.bytes_to_int`: big-endian accumulation `result = result*256 + b`. -/
def bytes_to_int (bs : List Nat) : Nat :=
  bs.foldl (fun result b => result * 256 + b) 0

/-- `MiKettle._parse_data`.  Each indexed access `data[i]` may raise
`IndexError` (modelled by `List.get?`/`none`) and each map lookup may raise
`KeyError`; the Python slice `data[7:8]` is the sub-list of length at most one
starting at index 7, which never raises. -/
def parse_data (data : List Nat) : Option Reading :=
  data[0]?.bind fun b0 =>
  (MI_ACTION_MAP b0).bind fun action =>
  data[1]?.bind fun b1 =>
  (MI_MODE_MAP b1).bind fun mode =>
  data[4]?.bind fun st =>
  data[5]?.bind fun ct =>
  data[6]?.bind fun b6 =>
  (MI_KW_TYPE_MAP b6).bind fun kw =>
  some { action := action, mode := mode, setTemperature := st,
         currentTemperature := ct, keepWarmType := kw,
         keepWarmTime := bytes_to_int ((data.drop 7).take 1) }

/-- The mutable per-device state touched by the cache logic: `_cache`,
`_last_read`, `_connected`, `_authed`, and the configured `_cache_timeout`
(ttl, in seconds). -/
structure KState where
  cache : Option Reading
  lastRead : Option Int
  connected : Bool
  authed : Bool
  ttl : Int
deriving DecidableEq, Repr

/-- The fill-or-serve condition of `parameter_value`:
`(read_cached is False) or (self._last_read is None) or
 (datetime.now() - self._cache_timeout > self._last_read)`. -/
def needsFill (read_cached : Bool) (lastRead : Option Int) (now ttl : Int) : Bool :=
  if read_cached = false then true
  else if lastRead.isNone then true
  else decide (now - ttl > lastRead.getD 0)

/-- `MiKettle.parameter_value`, with the effect of a fill cycle abstracted as
the state `fillOutcome` it would leave behind.  Returns (whether a fill was
performed, the state after the locked section, the served reading —
`none` models the final `raise`). -/
def parameter_value (s : KState) (read_cached : Bool) (now : Int)
    (fillOutcome : KState) : Bool × KState × Option Reading :=
  let doFill := needsFill read_cached s.lastRead now s.ttl
  let s' := if doFill then fillOutcome else s
  (doFill, s', s'.cache)

/-- The `except` branch of `MiKettle.fill_cache`: on any error at time `t`,
set `_last_read = now - cache_timeout + 300s` and reset the session flags;
`_cache` is not touched. -/
def fill_cache_fail (s : KState) (t : Int) : KState :=
  { s with lastRead := some (t - s.ttl + 300), connected := false, authed := false }

/-- `MiKettle.clear_cache`. -/
def clear_cache (s : KState) : KState :=
  { s with cache := none, lastRead := none }

/-- The `_HANDLE_STATUS` branch of `MiKettle.handleNotification` at time
`now`: `None` data returns unchanged; otherwise `_cache = _parse_data(data)`
(a decode error propagates, leaving the state unchanged — modelled as
`none`), then `_last_read` is set to `now` if `cache_available()` and to the
backoff timestamp otherwise. -/
def handleStatus (s : KState) (data : Option (List Nat)) (now : Int) :
    Option KState :=
  match data with
  | none => some s
  | some d =>
    match parse_data d with
    | none => none
    | some r =>
      let s1 := { s with cache := some r }
      some (if s1.cache.isSome then { s1 with lastRead := some now }
            else { s1 with lastRead := some (now - s.ttl + 300) })

/-- The both-present-or-both-absent relation between the cached reading and
its timestamp. -/
def cacheConsistent (s : KState) : Prop :=
  s.cache.isSome = s.lastRead.isSome

instance (s : KState) : Decidable (cacheConsistent s) := by
  unfold cacheConsistent; infer_instance

/-- An empty initial device state with the default ttl of 600 seconds. -/
def initState : KState :=
  { cache := none, lastRead := none, connected := false, authed := false, ttl := 600 }

/-- A sample decoded reading, as produced by a 7-byte status payload. -/
def sampleReading : Reading :=
  { action := "heating", mode := "boil", setTemperature := 65,
    currentTemperature := 23, keepWarmType := "warm up", keepWarmTime := 0 }

/-- A device state holding a cached reading taken at time 100. -/
def freshState : KState :=
  { initState with cache := some sampleReading, lastRead := some 100 }

/-- The simultaneous swap `perm[i], perm[j] = perm[j], perm[i]` on a byte
buffer, modelled with `List.set` (both values read from the original list). -/
def swapL (l : List Nat) (i j : Nat) : List Nat :=
  (l.set i (l.getD j 0)).set j (l.getD i 0)

/-- One iteration of the key-scheduling loop of `MiKettle._cipherInit`:
`j += perm[i] + key[i % keyLen]; j &= 0xff;` then swap `perm[i]`, `perm[j]`. -/
def initStep (key : List Nat) (st : List Nat × Nat) (i : Nat) : List Nat × Nat :=
  let j := (st.2 + st.1.getD i 0 + key.getD (i % key.length) 0) &&& 0xff
  (swapL st.1 i j, j)

/-- `MiKettle._cipherInit`: the identity byte table `[0 & 0xff, …, 255 & 0xff]`
run through the keyed swap schedule with `j` starting at 0. -/
def cipherInit (key : List Nat) : List Nat :=
  ((List.range 256).foldl (initStep key) ((List.range 256).map (fun i => i &&& 0xff), 0)).1

/-- One iteration of the index/permutation update of `MiKettle._cipherCrypt`
(`index1 = (index1+1) & 0xff; index2 = (index2 + perm[index1]) & 0xff;` swap). -/
def cryptStep (perm : List Nat) (i1 i2 : Nat) : List Nat × Nat × Nat :=
  let i1' := (i1 + 1) &&& 0xff
  let i2' := (i2 + perm.getD i1' 0) &&& 0xff
  (swapL perm i1' i2', i1', i2')

/-- The index `(perm[index1] + perm[index2]) & 0xff` from which
`_cipherCrypt` reads its keystream byte. -/
def readIdx (perm : List Nat) (i1 i2 : Nat) : Nat :=
  (perm.getD i1 0 + perm.getD i2 0) &&& 0xff

/-- The loop of `MiKettle._cipherCrypt`, recursing over the input bytes and
threading the evolving permutation and indices. -/
def cipherCryptAux : List Nat → List Nat → Nat → Nat → List Nat
  | [], _, _, _ => []
  | b :: rest, perm, i1, i2 =>
    let st := cryptStep perm i1 i2
    ((b ^^^ st.1.getD (readIdx st.1 st.2.1 st.2.2) 0) &&& 0xff) ::
      cipherCryptAux rest st.1 st.2.1 st.2.2

/-- `MiKettle._cipherCrypt`: both indices start at 0. -/
def cipherCrypt (input perm : List Nat) : List Nat :=
  cipherCryptAux input perm 0 0

/-- `MiKettle.cipher`: crypt with a fresh permutation derived from the key. -/
def cipher (key input : List Nat) : List Nat :=
  cipherCrypt input (cipherInit key)

/-- The keystream produced by `n` iterations of the `_cipherCrypt` loop; it
depends only on the permutation and indices, never on the input bytes. -/
def keystream : Nat → List Nat → Nat → Nat → List Nat
  | 0, _, _, _ => []
  | n + 1, perm, i1, i2 =>
    let st := cryptStep perm i1 i2
    st.1.getD (readIdx st.1 st.2.1 st.2.2) 0 :: keystream n st.1 st.2.1 st.2.2

/-- `MiKettle.mixA`. -/
def mixA (mac : List Nat) (productID : Nat) : List Nat :=
  [mac.getD 0 0, mac.getD 2 0, mac.getD 5 0, productID &&& 0xff,
   productID &&& 0xff, mac.getD 4 0, mac.getD 5 0, mac.getD 1 0]

/-- `MiKettle.mixB`. -/
def mixB (mac : List Nat) (productID : Nat) : List Nat :=
  [mac.getD 0 0, mac.getD 2 0, mac.getD 5 0, (productID >>> 8) &&& 0xff,
   mac.getD 4 0, mac.getD 0 0, mac.getD 5 0, productID &&& 0xff]

/-- `MiKettle.generateEkey`: `tick = cipher(token, challenge)`, copy the
token, then `ekey[i] ^= tick[i]` for `i` in `0..3`. -/
def generateEkey (token challenge : List Nat) : List Nat :=
  let tick := cipher token challenge
  (List.range 3).foldl (fun ekey i => ekey.set i (ekey.getD i 0 ^^^ tick.getD i 0)) token

/-- `MiKettle.checkPairing`: compares the chained decryption against the
long-term token with `!=`. -/
def checkPairing (reversed_mac : List Nat) (product_id : Nat)
    (token data : List Nat) : Bool :=
  cipher (mixB reversed_mac product_id)
    (cipher (mixA reversed_mac product_id) data) != token

/-- The module-level `_TOKEN` constant. -/
def tokenBytes : List Nat :=
  [0xD5, 0xEB, 0xE8, 0xFF, 0x8B, 0x99, 0xA5, 0x27, 0x26, 0x14, 0x54, 0x12]

/-- The byte-reversed form of the module-level `_MAC` constant
`78:11:DC:C2:F1:7F` (as produced by `reverseMac`). -/
def reversedMacBytes : List Nat := [0x7F, 0xF1, 0xC2, 0xDC, 0x11, 0x78]

/-- A pairing payload that decrypts to the long-term token:
`cipher(mixA, cipher(mixB, _TOKEN))` for the default MAC and product id. -/
def pairingData : List Nat :=
  [235, 135, 198, 13, 128, 198, 207, 80, 222, 34, 95, 169]

theorem needsFill_none (now ttl : Int) : needsFill true none now ttl = true := rfl

theorem needsFill_some (lr now ttl : Int) :
    needsFill true (some lr) now ttl = decide (now - ttl > lr) := rfl

end MiKettle

namespace MiKettle

/-- Claim C1 counterexample: decoding the status payload
`[1,1,0,0,65,23,0,0,5]` does NOT yield `keepWarmTimeMinutes = 5`; the slice
`data[7:8]` covers byte 7 only, so the value is `0`. -/
theorem c1_counterexample :
    (parse_data [1, 1, 0, 0, 65, 23, 0, 0, 5]).map Reading.keepWarmTime ≠ some 5 ∧
    (parse_data [1, 1, 0, 0, 65, 23, 0, 0, 5]).map Reading.keepWarmTime = some 0 := by
  decide

/-- Claim C1 (amended): decoding `[1,1,0,0,65,23,0,0,5]` yields
`{action: heating, mode: boil, setTemperature: 65, currentTemperature: 23,
keepWarmType: warm-up, keepWarmTimeMinutes: 0}`; keepWarmTimeMinutes is
computed by the big-endian accumulator over the one-byte slice `data[7:8]`,
i.e. from byte 7 alone. -/
theorem c1_decode_amended :
    parse_data [1, 1, 0, 0, 65, 23, 0, 0, 5] =
      some { action := "heating", mode := "boil", setTemperature := 65,
             currentTemperature := 23, keepWarmType := "warm up",
             keepWarmTime := 0 } ∧
    ∀ (d : List Nat) (r : Reading), parse_data d = some r →
      r.keepWarmTime = bytes_to_int ((d.drop 7).take 1) := by
  refine ⟨by decide, ?_⟩
  intro d r h
  simp only [parse_data, Option.bind_eq_some, Option.some.injEq] at h
  obtain ⟨b0, -, a, -, b1, -, m, -, st, -, ct, -, b6, -, kw, -, hr⟩ := h
  subst hr
  rfl

/-- Claim C1 witness: the amended keep-warm-time rule evaluated on the
concrete payload. -/
theorem c1_witness :
    parse_data [1, 1, 0, 0, 65, 23, 0, 0, 5] =
      some { action := "heating", mode := "boil", setTemperature := 65,
             currentTemperature := 23, keepWarmType := "warm up",
             keepWarmTime := 0 } ∧
    ({ action := "heating", mode := "boil", setTemperature := 65,
       currentTemperature := 23, keepWarmType := "warm up",
       keepWarmTime := 0 } : Reading).keepWarmTime =
      bytes_to_int ((([1, 1, 0, 0, 65, 23, 0, 0, 5] : List Nat).drop 7).take 1) :=
  ⟨c1_decode_amended.1,
   c1_decode_amended.2 [1, 1, 0, 0, 65, 23, 0, 0, 5] _ (by decide)⟩

/-- Claim C2 counterexample: after a failed fill cycle on the empty initial
state, the timestamp is present while the cached reading is absent, so the
reading and the timestamp are not updated atomically together. -/
theorem c2_counterexample : ¬ cacheConsistent (fill_cache_fail initState 0) := by
  decide

/-- Claim C2 (amended): `clear_cache` clears the reading and the timestamp
together, and status-notification handling preserves the
both-present-or-both-absent invariant, but a failed fill cycle sets only the
timestamp (to the backoff value `t - ttl + 300`) and leaves the reading
untouched, so after a failed fill with no cached reading the timestamp is
present while the reading is absent. -/
theorem c2_amended (s s' : KState) (data : Option (List Nat)) (now t : Int) :
    cacheConsistent (clear_cache s) ∧
    (cacheConsistent s → handleStatus s data now = some s' → cacheConsistent s') ∧
    (fill_cache_fail s t).cache = s.cache ∧
    (fill_cache_fail s t).lastRead = some (t - s.ttl + 300) := by
  refine ⟨rfl, ?_, rfl, rfl⟩
  intro hs h
  unfold handleStatus at h
  cases data with
  | none => simp only [Option.some.injEq] at h; exact h ▸ hs
  | some d =>
    cases hp : parse_data d with
    | none => simp [hp] at h
    | some r =>
      simp only [hp, Option.isSome_some, if_true, Option.some.injEq] at h
      subst h
      rfl

/-- Claim C2 witness: the preserved-invariant part of the amended claim,
applied to a concrete status notification on the empty initial state. -/
theorem c2_witness :
    cacheConsistent initState ∧
    handleStatus initState (some [1, 1, 0, 0, 65, 23, 0]) 42 =
      some { initState with cache := some sampleReading, lastRead := some 42 } ∧
    cacheConsistent { initState with cache := some sampleReading, lastRead := some 42 } :=
  ⟨by decide, by decide,
   (c2_amended initState
      { initState with cache := some sampleReading, lastRead := some 42 }
      (some [1, 1, 0, 0, 65, 23, 0]) 42 0).2.1 (by decide) (by decide)⟩

/-- Claim C4: a fill cycle that throws at time `t` sets `lastRead` to
`t - ttl + 300`, and a subsequent cached read's fill condition then holds
iff more than 300 seconds have elapsed since `t`, regardless of the ttl. -/
theorem c4_backoff (s : KState) (t now : Int) :
    (fill_cache_fail s t).lastRead = some (t - s.ttl + 300) ∧
    (needsFill true (fill_cache_fail s t).lastRead now s.ttl = true ↔ 300 < now - t) := by
  constructor
  · rfl
  · show needsFill true (some (t - s.ttl + 300)) now s.ttl = true ↔ 300 < now - t
    rw [needsFill_some]
    simp only [gt_iff_lt, decide_eq_true_eq]
    omega

/-- Claim C4 witness: the backoff timestamp and a retry 301 seconds later
(which does fill again) on a concrete state. -/
theorem c4_witness :
    (fill_cache_fail initState 0).lastRead = some (0 - initState.ttl + 300) ∧
    needsFill true (fill_cache_fail initState 0).lastRead 301 initState.ttl = true :=
  ⟨(c4_backoff initState 0 301).1,
   (c4_backoff initState 0 301).2.mpr (by decide)⟩

/-- Claim C5: `parameter_value` with `read_cached = true` serves the cached
reading without performing a fill iff a cached reading exists and
`now - lastRead ≤ ttl`; when no fill is performed the served value is
exactly the cached reading; in particular with ttl = 600 a reading with
`lastRead = now - 500` skips the fill while `lastRead = now - 700`
triggers one. -/
theorem c5_cache_freshness (s : KState) (now : Int) (fo : KState) :
    (((parameter_value s true now fo).1 = false ∧
      ((parameter_value s true now fo).2.2).isSome = true) ↔
      (s.cache.isSome = true ∧ ∃ lr, s.lastRead = some lr ∧ now - lr ≤ s.ttl)) ∧
    ((parameter_value s true now fo).1 = false →
      (parameter_value s true now fo).2.2 = s.cache) ∧
    (s.lastRead = some (now - 500) → s.ttl = 600 →
      (parameter_value s true now fo).1 = false) ∧
    (s.lastRead = some (now - 700) → s.ttl = 600 →
      (parameter_value s true now fo).1 = true) := by
  have hser : ∀ _ : needsFill true s.lastRead now s.ttl = false,
      (parameter_value s true now fo).2.2 = s.cache := by
    intro h
    unfold parameter_value
    simp [h]
  have hfill : needsFill true s.lastRead now s.ttl = false ↔
      ∃ lr, s.lastRead = some lr ∧ now - lr ≤ s.ttl := by
    cases hl : s.lastRead with
    | none => simp [needsFill_none]
    | some lr =>
      rw [needsFill_some]
      simp only [gt_iff_lt, decide_eq_false_iff_not, not_lt, Option.some.injEq]
      constructor
      · intro h
        exact ⟨lr, rfl, by omega⟩
      · rintro ⟨lr', hlr', hle⟩
        cases hlr'
        omega
  refine ⟨?_, ?_, ?_, ?_⟩
  · constructor
    · rintro ⟨h1, h2⟩
      have hn : needsFill true s.lastRead now s.ttl = false := by
        simpa [parameter_value] using h1
      refine ⟨?_, hfill.mp hn⟩
      rw [hser hn] at h2
      exact h2
    · rintro ⟨hc, hlr⟩
      have hn : needsFill true s.lastRead now s.ttl = false := hfill.mpr hlr
      refine ⟨by simpa [parameter_value] using hn, ?_⟩
      rw [hser hn]
      exact hc
  · intro h1
    exact hser (by simpa [parameter_value] using h1)
  · intro hl ht
    have hn : needsFill true s.lastRead now s.ttl = false :=
      hfill.mpr ⟨now - 500, hl, by omega⟩
    simpa [parameter_value] using hn
  · intro hl ht
    show needsFill true s.lastRead now s.ttl = true
    rw [hl, ht, needsFill_some]
    simp only [gt_iff_lt, decide_eq_true_eq]
    omega

/-- Claim C5 witness: a fresh cached reading (ttl 600, read 500 seconds ago)
is served without a fill. -/
theorem c5_witness :
    (parameter_value freshState true 600 initState).1 = false ∧
    ((parameter_value freshState true 600 initState).2.2).isSome = true :=
  (c5_cache_freshness freshState 600 initState).1.mpr
    ⟨by decide, 100, rfl, by decide⟩

/-- Claim C10: in the status branch of `handleNotification` with non-`None`
data, whenever `_parse_data` returns a reading the cache has just been set
to it, so `cache_available()` is true and `lastRead` is set to the current
time; the else branch applying the backoff timestamp is never taken. -/
theorem c10_else_unreachable (s : KState) (d : List Nat) (r : Reading) (now : Int)
    (h : parse_data d = some r) :
    handleStatus s (some d) now =
      some { s with cache := some r, lastRead := some now } := by
  unfold handleStatus
  simp [h]

/-- Claim C10 witness: a concrete successful decode sets `lastRead` to the
notification time. -/
theorem c10_witness :
    parse_data [1, 1, 0, 0, 65, 23, 0] = some sampleReading ∧
    handleStatus initState (some [1, 1, 0, 0, 65, 23, 0]) 42 =
      some { initState with cache := some sampleReading, lastRead := some 42 } :=
  ⟨by decide,
   c10_else_unreachable initState [1, 1, 0, 0, 65, 23, 0] sampleReading 42 (by decide)⟩

theorem getElem?_eq_some_getD {l : List Nat} {i : Nat} (h : i < l.length) :
    l[i]? = some (l.getD i 0) := by
  rw [List.getD_eq_getElem?_getD]
  cases hg : l[i]? with
  | none => exact absurd (List.getElem?_eq_none_iff.mp hg) (by omega)
  | some a => rfl

/-- Claim C7 counterexample: the 7-byte payload `[1,1,0,0,65,23,0]` is
shorter than 8 bytes yet decodes successfully (the keep-warm-time slice
`data[7:8]` is empty and yields 0), so decoding does not fail on every
payload shorter than 8 bytes. -/
theorem c7_counterexample :
    parse_data [1, 1, 0, 0, 65, 23, 0] ≠ none ∧
    ([1, 1, 0, 0, 65, 23, 0] : List Nat).length < 8 := by
  decide

/-- Claim C7 (amended): decoding fails on every payload whose byte 0 is an
unmapped action code (e.g. 9) and on every payload shorter than 7 bytes;
it is pure and total (returns a reading) on every payload of length at
least 7 whose action, mode and keep-warm-type codes are all mapped. -/
theorem c7_amended (d : List Nat) :
    (d[0]? = some 9 → parse_data d = none) ∧
    (d.length < 7 → parse_data d = none) ∧
    (7 ≤ d.length → (MI_ACTION_MAP (d.getD 0 0)).isSome = true →
      (MI_MODE_MAP (d.getD 1 0)).isSome = true →
      (MI_KW_TYPE_MAP (d.getD 6 0)).isSome = true →
      (parse_data d).isSome = true) := by
  refine ⟨?_, ?_, ?_⟩
  · intro h
    simp only [parse_data, h, Option.some_bind]
    rfl
  · intro hlen
    have h6 : d[6]? = none := List.getElem?_eq_none_iff.mpr (by omega)
    cases h0 : d[0]? with
    | none => simp [parse_data, h0]
    | some b0 =>
      cases hA : MI_ACTION_MAP b0 with
      | none => simp [parse_data, h0, hA]
      | some a =>
        cases h1 : d[1]? with
        | none => simp [parse_data, h0, hA, h1]
        | some b1 =>
          cases hM : MI_MODE_MAP b1 with
          | none => simp [parse_data, h0, hA, h1, hM]
          | some m =>
            cases h4 : d[4]? with
            | none => simp [parse_data, h0, hA, h1, hM, h4]
            | some st =>
              cases h5 : d[5]? with
              | none => simp [parse_data, h0, hA, h1, hM, h4, h5]
              | some ct => simp [parse_data, h0, hA, h1, hM, h4, h5, h6]
  · intro hlen hA hM hK
    have h0 := getElem?_eq_some_getD (l := d) (i := 0) (by omega)
    have h1 := getElem?_eq_some_getD (l := d) (i := 1) (by omega)
    have h4 := getElem?_eq_some_getD (l := d) (i := 4) (by omega)
    have h5 := getElem?_eq_some_getD (l := d) (i := 5) (by omega)
    have h6 := getElem?_eq_some_getD (l := d) (i := 6) (by omega)
    obtain ⟨a, ha⟩ := Option.isSome_iff_exists.mp hA
    obtain ⟨m, hm⟩ := Option.isSome_iff_exists.mp hM
    obtain ⟨kw, hkw⟩ := Option.isSome_iff_exists.mp hK
    simp only [parse_data, h0, h1, h4, h5, h6, ha, hm, hkw, Option.some_bind,
      Option.isSome_some]

/-- Claim C7 witness: an unmapped action code 9 fails, a 2-byte payload
fails, and a valid 7-byte payload decodes. -/
theorem c7_witness :
    parse_data [9, 1, 0, 0, 65, 23, 0] = none ∧
    parse_data [1, 1] = none ∧
    (parse_data [1, 1, 0, 0, 65, 23, 0]).isSome = true :=
  ⟨(c7_amended [9, 1, 0, 0, 65, 23, 0]).1 (by decide),
   (c7_amended [1, 1]).2.1 (by decide),
   (c7_amended [1, 1, 0, 0, 65, 23, 0]).2.2 (by decide) (by decide) (by decide)
     (by decide)⟩

theorem land255_eq_mod (x : Nat) : x &&& 255 = x % 256 := by
  have h := Nat.and_pow_two_sub_one_eq_mod x 8
  norm_num at h
  exact h

theorem land255_lt (x : Nat) : x &&& 255 < 256 := by
  rw [land255_eq_mod]
  exact Nat.mod_lt _ (by norm_num)

theorem land255_of_lt {x : Nat} (h : x < 256) : x &&& 255 = x := by
  rw [land255_eq_mod]
  exact Nat.mod_eq_of_lt h

theorem xor_lt_256 {a b : Nat} (ha : a < 256) (hb : b < 256) : a ^^^ b < 256 := by
  have h := Nat.xor_lt_two_pow (n := 8) (by norm_num at ha ⊢; exact ha)
    (by norm_num at hb ⊢; exact hb)
  norm_num at h
  exact h

theorem getD_lt_256 {l : List Nat} (h : ∀ x ∈ l, x < 256) (i : Nat) :
    l.getD i 0 < 256 := by
  rw [List.getD_eq_getElem?_getD]
  cases hg : l[i]? with
  | none => simp
  | some a =>
    have ha : a ∈ l := List.get?_mem (by simpa [List.get?_eq_getElem?] using hg)
    simpa using h a ha

theorem cons_set_perm : ∀ (xs : List Nat) (k x : Nat), k < xs.length →
    List.Perm (xs.getD k 0 :: xs.set k x) (x :: xs)
  | [], k, x, h => absurd h (by simp)
  | y :: ys, 0, x, _ => by
      simpa using List.Perm.swap x y ys
  | y :: ys, k + 1, x, h => by
      simp only [List.getD_cons_succ, List.set_cons_succ]
      exact List.Perm.trans (List.Perm.swap y (ys.getD k 0) (ys.set k x))
        (List.Perm.trans
          (List.Perm.cons y (cons_set_perm ys k x (Nat.lt_of_succ_lt_succ (by simpa using h))))
          (List.Perm.swap x y ys))

theorem swapL_perm : ∀ (l : List Nat) (i j : Nat), i < l.length → j < l.length →
    List.Perm (swapL l i j) l
  | [], i, j, hi, _ => absurd hi (by simp)
  | x :: xs, 0, 0, _, _ => by
      simp [swapL]
  | x :: xs, 0, j + 1, _, hj => by
      show List.Perm (((x :: xs).set 0 (xs.getD j 0)).set (j + 1) x) (x :: xs)
      simp only [List.set_cons_zero, List.set_cons_succ]
      exact cons_set_perm xs j x (Nat.lt_of_succ_lt_succ hj)
  | x :: xs, i + 1, 0, hi, _ => by
      show List.Perm (((x :: xs).set (i + 1) x).set 0 (xs.getD i 0)) (x :: xs)
      simp only [List.set_cons_succ, List.set_cons_zero]
      exact cons_set_perm xs i x (Nat.lt_of_succ_lt_succ hi)
  | x :: xs, i + 1, j + 1, hi, hj => by
      show List.Perm (x :: swapL xs i j) (x :: xs)
      exact List.Perm.cons x
        (swapL_perm xs i j (Nat.lt_of_succ_lt_succ hi) (Nat.lt_of_succ_lt_succ hj))

theorem perm_range_length {perm : List Nat} (h : List.Perm perm (List.range 256)) :
    perm.length = 256 := by
  simpa using h.length_eq

theorem perm_range_getD_lt {perm : List Nat} (h : List.Perm perm (List.range 256))
    (i : Nat) : perm.getD i 0 < 256 :=
  getD_lt_256 (fun _ hx => List.mem_range.mp (h.mem_iff.mp hx)) i

theorem cryptStep_perm {perm : List Nat} (h : List.Perm perm (List.range 256))
    (i1 i2 : Nat) : List.Perm (cryptStep perm i1 i2).1 (List.range 256) := by
  refine List.Perm.trans ?_ h
  exact swapL_perm perm _ _ (by rw [perm_range_length h]; exact land255_lt _)
    (by rw [perm_range_length h]; exact land255_lt _)

theorem foldl_initStep_perm (key : List Nat) : ∀ (idxs : List Nat) (perm : List Nat)
    (j : Nat), (∀ i ∈ idxs, i < 256) → List.Perm perm (List.range 256) →
    List.Perm ((idxs.foldl (initStep key) (perm, j)).1) (List.range 256) := by
  intro idxs
  induction idxs with
  | nil => intro perm j _ h; exact h
  | cons i rest ih =>
    intro perm j hmem h
    rw [List.foldl_cons]
    refine ih _ _ (fun x hx => hmem x (List.mem_cons_of_mem _ hx)) ?_
    show List.Perm (swapL perm i _) (List.range 256)
    refine List.Perm.trans ?_ h
    exact swapL_perm perm _ _
      (by rw [perm_range_length h]; exact hmem i (List.mem_cons_self _ _))
      (by rw [perm_range_length h]; exact land255_lt _)

theorem cipherInit_perm (key : List Nat) :
    List.Perm (cipherInit key) (List.range 256) := by
  unfold cipherInit
  have hbase : (List.range 256).map (fun i => i &&& 0xff) = List.range 256 := by decide
  rw [hbase]
  exact foldl_initStep_perm key (List.range 256) (List.range 256) 0
    (fun i hi => List.mem_range.mp hi) (List.Perm.refl _)

theorem cipherCryptAux_eq_zipWith : ∀ (input perm : List Nat) (i1 i2 : Nat),
    cipherCryptAux input perm i1 i2 =
      List.zipWith (fun b k => (b ^^^ k) &&& 0xff) input
        (keystream input.length perm i1 i2)
  | [], _, _, _ => rfl
  | b :: rest, perm, i1, i2 => by
      simp only [cipherCryptAux, keystream, List.length_cons, List.zipWith_cons_cons]
      rw [cipherCryptAux_eq_zipWith rest]

theorem keystream_length : ∀ (n : Nat) (perm : List Nat) (i1 i2 : Nat),
    (keystream n perm i1 i2).length = n
  | 0, _, _, _ => rfl
  | n + 1, perm, i1, i2 => by
      simp only [keystream, List.length_cons]
      rw [keystream_length n]

theorem cipherCrypt_length (input perm : List Nat) :
    (cipherCrypt input perm).length = input.length := by
  unfold cipherCrypt
  rw [cipherCryptAux_eq_zipWith, List.length_zipWith, keystream_length]
  exact Nat.min_self _

theorem cipher_length (key input : List Nat) :
    (cipher key input).length = input.length :=
  cipherCrypt_length input (cipherInit key)

theorem keystream_lt : ∀ (n : Nat) {perm : List Nat},
    List.Perm perm (List.range 256) → ∀ (i1 i2 : Nat),
    ∀ k ∈ keystream n perm i1 i2, k < 256
  | 0, _, _, _, _, _, hk => by simp [keystream] at hk
  | n + 1, perm, h, i1, i2, k, hk => by
      simp only [keystream, List.mem_cons] at hk
      rcases hk with h1 | h2
      · subst h1
        exact perm_range_getD_lt (cryptStep_perm h i1 i2) _
      · exact keystream_lt n (cryptStep_perm h i1 i2) _ _ k h2

theorem zipWith_xor_cancel : ∀ (p ks : List Nat), p.length = ks.length →
    (∀ b ∈ p, b < 256) → (∀ k ∈ ks, k < 256) →
    List.zipWith (fun b k => (b ^^^ k) &&& 0xff)
      (List.zipWith (fun b k => (b ^^^ k) &&& 0xff) p ks) ks = p
  | [], _, _, _, _ => by simp
  | b :: pr, [], hlen, _, _ => by simp at hlen
  | b :: pr, k :: kr, hlen, hp, hks => by
      simp only [List.zipWith_cons_cons]
      have hb : b < 256 := hp b (List.mem_cons_self _ _)
      have hkk : k < 256 := hks k (List.mem_cons_self _ _)
      congr 1
      · rw [land255_of_lt (xor_lt_256 hb hkk), Nat.xor_assoc, Nat.xor_self,
          Nat.xor_zero, land255_of_lt hb]
      · exact zipWith_xor_cancel pr kr (by simpa using hlen)
          (fun x hx => hp x (List.mem_cons_of_mem _ hx))
          (fun x hx => hks x (List.mem_cons_of_mem _ hx))

theorem cipherCrypt_invol {perm p : List Nat} (hperm : List.Perm perm (List.range 256))
    (hp : ∀ b ∈ p, b < 256) : cipherCrypt (cipherCrypt p perm) perm = p := by
  unfold cipherCrypt
  rw [cipherCryptAux_eq_zipWith p, cipherCryptAux_eq_zipWith]
  have hlen : (List.zipWith (fun b k => (b ^^^ k) &&& 0xff) p
      (keystream p.length perm 0 0)).length = p.length := by
    rw [List.length_zipWith, keystream_length]
    exact Nat.min_self _
  rw [hlen]
  exact zipWith_xor_cancel p (keystream p.length perm 0 0)
    (by rw [keystream_length]) hp
    (fun x hx => keystream_lt p.length hperm 0 0 x hx)

/-- Claim C3: for every non-empty key `k` and every byte sequence `p`,
`cipher(k, cipher(k, p)) == p` — each call re-derives the same fresh
permutation from the key, and the keystream XOR is an involution. -/
theorem c3_cipher_involutive (k p : List Nat) (_hk : k ≠ [])
    (hp : ∀ b ∈ p, b < 256) : cipher k (cipher k p) = p :=
  cipherCrypt_invol (cipherInit_perm k) hp

/-- Claim C3 witness: the round-trip on the key `[1]` and plaintext
`[5, 200]`. -/
theorem c3_witness :
    (([1] : List Nat) ≠ [] ∧ ∀ b ∈ ([5, 200] : List Nat), b < 256) ∧
    cipher [1] (cipher [1] [5, 200]) = [5, 200] :=
  ⟨⟨by decide, by decide⟩,
   c3_cipher_involutive [1] [5, 200] (by decide) (by decide)⟩

theorem exists_three_cons : ∀ (l : List Nat), 3 ≤ l.length →
    ∃ a b c tl, l = a :: b :: c :: tl
  | [], h => absurd h (by decide)
  | [a], h => absurd h (by simp)
  | [a, b], h => absurd h (by simp)
  | a :: b :: c :: tl, _ => ⟨a, b, c, tl, rfl⟩

theorem ekey_fold (t0 t1 t2 : Nat) (tr : List Nat) (tick : List Nat) :
    (List.range 3).foldl
      (fun ekey i => ekey.set i (ekey.getD i 0 ^^^ tick.getD i 0))
      (t0 :: t1 :: t2 :: tr) =
    (t0 ^^^ tick.getD 0 0) :: (t1 ^^^ tick.getD 1 0) ::
      (t2 ^^^ tick.getD 2 0) :: tr := rfl

/-- Claim C6: for every 12-byte token and every challenge of length at least
3, `generateEkey(token, challenge)` returns 12 bytes whose first 3 bytes are
`token[0..3] XOR cipher(token, challenge)[0..3]` and whose bytes 3..12 are
`token[3..12]` unchanged. -/
theorem c6_generateEkey_spec (token challenge : List Nat)
    (ht : token.length = 12) (hc : 3 ≤ challenge.length) :
    (generateEkey token challenge).length = 12 ∧
    (generateEkey token challenge).take 3 =
      List.zipWith (fun a b => a ^^^ b) (token.take 3)
        ((cipher token challenge).take 3) ∧
    (generateEkey token challenge).drop 3 = token.drop 3 := by
  obtain ⟨t0, t1, t2, tr, rfl⟩ := exists_three_cons token (by omega)
  obtain ⟨k0, k1, k2, kr, hk⟩ :=
    exists_three_cons (cipher (t0 :: t1 :: t2 :: tr) challenge)
      (by rw [cipher_length]; omega)
  have h1 : generateEkey (t0 :: t1 :: t2 :: tr) challenge =
      (t0 ^^^ (cipher (t0 :: t1 :: t2 :: tr) challenge).getD 0 0) ::
      (t1 ^^^ (cipher (t0 :: t1 :: t2 :: tr) challenge).getD 1 0) ::
      (t2 ^^^ (cipher (t0 :: t1 :: t2 :: tr) challenge).getD 2 0) :: tr :=
    ekey_fold t0 t1 t2 tr (cipher (t0 :: t1 :: t2 :: tr) challenge)
  rw [hk] at h1
  simp only [List.getD_cons_zero, List.getD_cons_succ] at h1
  have htr : tr.length = 9 := by simpa using ht
  refine ⟨?_, ?_, ?_⟩
  · rw [h1]
    simp [htr]
  · rw [h1, hk]
    rfl
  · rw [h1]
    rfl

/-- Claim C6 witness: the ekey derivation on the module token and the
challenge `[1, 2, 3]`. -/
theorem c6_witness :
    (tokenBytes.length = 12 ∧ 3 ≤ ([1, 2, 3] : List Nat).length) ∧
    (generateEkey tokenBytes [1, 2, 3]).length = 12 ∧
    (generateEkey tokenBytes [1, 2, 3]).take 3 =
      List.zipWith (fun a b => a ^^^ b) (tokenBytes.take 3)
        ((cipher tokenBytes [1, 2, 3]).take 3) ∧
    (generateEkey tokenBytes [1, 2, 3]).drop 3 = tokenBytes.drop 3 :=
  ⟨⟨by decide, by decide⟩,
   c6_generateEkey_spec tokenBytes [1, 2, 3] (by decide) (by decide)⟩

set_option maxHeartbeats 4000000 in
/-- Claim C8 (code bug): `checkPairing` compares the chained decryption
against the long-term token with `!=`, so it returns `false` exactly when
the decryption equals the token — the opposite of the claimed polarity.
On `pairingData` the chained decryption equals `_TOKEN`, yet `checkPairing`
returns `false`. -/
theorem c8_pairing_inverted :
    cipher (mixB reversedMacBytes 131)
      (cipher (mixA reversedMacBytes 131) pairingData) = tokenBytes ∧
    checkPairing reversedMacBytes 131 tokenBytes pairingData = false := by
  have h : cipher (mixB reversedMacBytes 131)
      (cipher (mixA reversedMacBytes 131) pairingData) = tokenBytes := by decide
  refine ⟨h, ?_⟩
  show (cipher (mixB reversedMacBytes 131)
    (cipher (mixA reversedMacBytes 131) pairingData) != tokenBytes) = false
  rw [h]
  simp

/-- Claim C9: for every non-empty key, `_cipherInit` returns a permutation
of the values 0..255, and each `_cipherCrypt` iteration only swaps two
in-bounds entries, so the buffer stays a permutation of 0..255 and the
index used to read the keystream byte is always in bounds. -/
theorem c9_perm_invariant (key : List Nat) (_hk : key ≠ []) :
    List.Perm (cipherInit key) (List.range 256) ∧
    ∀ (perm : List Nat) (i1 i2 : Nat), List.Perm perm (List.range 256) →
      List.Perm (cryptStep perm i1 i2).1 (List.range 256) ∧
      readIdx (cryptStep perm i1 i2).1 (cryptStep perm i1 i2).2.1
          (cryptStep perm i1 i2).2.2 < ((cryptStep perm i1 i2).1).length := by
  refine ⟨cipherInit_perm key, ?_⟩
  intro perm i1 i2 h
  have h' := cryptStep_perm h i1 i2
  refine ⟨h', ?_⟩
  rw [perm_range_length h']
  exact land255_lt _

/-- Claim C9 witness: the key-schedule permutation for the key `[7]` and one
crypt step from the identity permutation. -/
theorem c9_witness :
    (([7] : List Nat) ≠ []) ∧
    List.Perm (cipherInit [7]) (List.range 256) ∧
    List.Perm (cryptStep (List.range 256) 0 0).1 (List.range 256) :=
  ⟨by decide, (c9_perm_invariant [7] (by decide)).1,
   ((c9_perm_invariant [7] (by decide)).2 (List.range 256) 0 0 (List.Perm.refl _)).1⟩

end MiKettle
